import Mathlib

/-!
Shallow embedding of the alphonse-ui server core: the Alphonse API client
(`server/clients/alphonse_api.py`) and the chat timeline / streaming layer
(`server/app.py`).

Modelling conventions:
* Python values parsed from JSON (`json.loads`) are modelled by the `Json`
  inductive; objects are association lists with distinct keys, in which a
  missing key and a key bound to `null` both surface as Python `None`
  through `dict.get`.
* Network effects of `urllib` are modelled by an explicit `Upstream`
  outcome passed to each client operation; the except-clause of
  `_request_json` corresponds to the non-`ok` constructors.
* Machine floats (the configurable timeout) are modelled by `PyFloat`:
  IEEE binary64 values as exact rationals `m * 2 ^ e` plus the
  infinities and `nan`, with `pyParseFloat` mirroring Python `float(...)`
  on lower-cased stripped strings — the `inf`/`infinity`/`nan` literals,
  PEP 515 underscore grouping, and correctly rounded conversion with
  overflow to infinity and gradual/total underflow.
* `str.strip()` is modelled by `pystrip` over the underlying character
  list, with the ASCII whitespace set (all strings handled here are ASCII).
-/

/-- JSON values as returned by `json.loads`. -/
inductive Json where
  | null : Json
  | bool (b : Bool) : Json
  | num (q : ℚ) : Json
  | str (s : String) : Json
  | arr (elems : List Json) : Json
  | obj (fields : List (String × Json)) : Json

/-- Association-list lookup for JSON object fields (objects from
`json.loads` have distinct keys, so first-match lookup is faithful). -/
def lookupField : List (String × Json) → String → Option Json
  | [], _ => none
  | (k, v) :: rest, key => if k = key then some v else lookupField rest key

/-- `payload.get(key)` on an object, `none` otherwise / when missing. -/
def Json.getField : Json → String → Option Json
  | .obj fields, key => lookupField fields key
  | _, _ => none

def Json.isNull : Json → Bool
  | .null => true
  | _ => false

/-- Python truthiness of a decoded JSON value. -/
def pyTruthy : Json → Bool
  | .null => false
  | .bool b => b
  | .num q => decide (q ≠ 0)
  | .str s => decide (s ≠ "")
  | .arr elems => !elems.isEmpty
  | .obj fields => !fields.isEmpty

/-- Python `str(...)` of a decoded JSON value.  Strings pass through
unchanged; the container cases are abbreviated stand-ins (the code only
applies this to values that are strings on every reachable path). -/
def pyStrCoerce : Json → String
  | .null => "None"
  | .bool b => if b then "True" else "False"
  | .num q => reprStr q
  | .str s => s
  | .arr _ => "<list>"
  | .obj _ => "<dict>"

/-- The whitespace set stripped by Python `str.strip()` (ASCII fragment). -/
def pyIsSpace (c : Char) : Bool :=
  c == ' ' || c == '\t' || c == '\n' || c == '\r' || c == Char.ofNat 11 || c == Char.ofNat 12

/-- `str.strip()` over the character list. -/
def pystrip (l : List Char) : List Char :=
  ((l.dropWhile pyIsSpace).reverse.dropWhile pyIsSpace).reverse

/-- `str.strip()` on strings. -/
def pystripStr (s : String) : String :=
  String.mk (pystrip s.toList)

/-- `str.lower()` (ASCII model, matching the configuration strings in
scope). -/
def pyLower (s : String) : String := String.mk (s.toList.map Char.toLower)

/-- `value.split(" ")`: split on every single space, keeping empty parts. -/
def splitSp : List Char → List (List Char)
  | [] => [[]]
  | c :: rest =>
    if c = ' ' then [] :: splitSp rest
    else
      match splitSp rest with
      | [] => [[c]]
      | w :: ws => (c :: w) :: ws

/-- `[part for part in s.split(" ") if part]` as strings. -/
def pyWords (s : String) : List String :=
  ((splitSp s.toList).filter (fun w => decide (w ≠ []))).map String.mk

/-- Decimal digits of a natural number, most significant first;
fuel-structured so it reduces definitionally (`fuel = n` suffices since
`n / 10 < n`). -/
def natDigitsAux : Nat → Nat → List Char
  | 0, n => [Char.ofNat (48 + n % 10)]
  | fuel + 1, n =>
    if n < 10 then [Char.ofNat (48 + n)]
    else natDigitsAux fuel (n / 10) ++ [Char.ofNat (48 + n % 10)]

def natDigits (n : Nat) : List Char := natDigitsAux n n

theorem splitSp_ne_nil (l : List Char) : splitSp l ≠ [] := by
  cases l with
  | nil => simp [splitSp]
  | cons d ds =>
    simp only [splitSp]
    split
    · simp
    · split <;> simp

theorem splitSp_append_space (a b : List Char) :
    splitSp (a ++ ' ' :: b) = splitSp a ++ splitSp b := by
  induction a with
  | nil => simp [splitSp]
  | cons c rest ih =>
    by_cases hc : c = ' '
    · subst hc
      simp [splitSp, ih]
    · simp only [List.cons_append, splitSp, if_neg hc, List.append_eq]
      rw [ih]
      cases hs : splitSp rest with
      | nil => exact absurd hs (splitSp_ne_nil rest)
      | cons w ws => simp

theorem natDigitsAux_ne_nil (fuel n : Nat) : natDigitsAux fuel n ≠ [] := by
  cases fuel with
  | zero => simp [natDigitsAux]
  | succ fuel =>
    simp only [natDigitsAux]
    split <;> simp

theorem natDigits_ne_nil (n : Nat) : natDigits n ≠ [] :=
  natDigitsAux_ne_nil n n

theorem natDigitsAux_digits (fuel : Nat) :
    ∀ n c, c ∈ natDigitsAux fuel n → ∃ d, d < 10 ∧ c = Char.ofNat (48 + d) := by
  induction fuel with
  | zero =>
    intro n c hc
    simp only [natDigitsAux, List.mem_singleton] at hc
    exact ⟨n % 10, Nat.mod_lt _ (by omega), hc⟩
  | succ fuel ih =>
    intro n c hc
    simp only [natDigitsAux] at hc
    split at hc
    · simp only [List.mem_singleton] at hc
      exact ⟨n, by omega, hc⟩
    · rcases List.mem_append.mp hc with h | h
      · exact ih (n / 10) c h
      · simp only [List.mem_singleton] at h
        exact ⟨n % 10, Nat.mod_lt _ (by omega), h⟩

theorem natDigits_digits (n : Nat) :
    ∀ c ∈ natDigits n, ∃ d, d < 10 ∧ c = Char.ofNat (48 + d) := by
  intro c hc
  exact natDigitsAux_digits n n c hc

theorem digit_not_space (d : Nat) (hd : d < 10) :
    pyIsSpace (Char.ofNat (48 + d)) = false := by
  interval_cases d <;> decide

theorem head?_dropWhile_false (p : Char → Bool) (l : List Char) :
    ∀ c, (l.dropWhile p).head? = some c → p c = false := by
  induction l with
  | nil => intro c h; simp [List.dropWhile] at h
  | cons a l ih =>
    intro c h
    by_cases hpa : p a
    · rw [List.dropWhile_cons_of_pos hpa] at h
      exact ih c h
    · rw [List.dropWhile_cons_of_neg hpa] at h
      simp only [List.head?_cons, Option.some.injEq] at h
      rw [← h]
      exact eq_false_of_ne_true hpa

theorem getLast?_dropWhile (p : Char → Bool) (l : List Char)
    (h : l.dropWhile p ≠ []) : (l.dropWhile p).getLast? = l.getLast? := by
  induction l with
  | nil => simp [List.dropWhile] at h
  | cons a l ih =>
    by_cases hpa : p a
    · rw [List.dropWhile_cons_of_pos hpa] at h ⊢
      have hl : l ≠ [] := by
        intro hnil
        rw [hnil] at h
        simp [List.dropWhile] at h
      rw [ih h]
      cases l with
      | nil => exact absurd rfl hl
      | cons b bs => simp [List.getLast?_cons_cons]
    · rw [List.dropWhile_cons_of_neg hpa]

theorem pystrip_of_clean (l : List Char)
    (hh : ∀ c, l.head? = some c → pyIsSpace c = false)
    (hl : ∀ c, l.getLast? = some c → pyIsSpace c = false) :
    pystrip l = l := by
  unfold pystrip
  cases l with
  | nil => rfl
  | cons c rest =>
    have h1 : (c :: rest).dropWhile pyIsSpace = c :: rest :=
      List.dropWhile_cons_of_neg (by simp [hh c rfl])
    rw [h1]
    cases hr : (c :: rest).reverse with
    | nil => simp at hr
    | cons d ds =>
      have hd : (c :: rest).getLast? = some d := by
        rw [← List.head?_reverse, hr]
        rfl
      have h2 : (d :: ds).dropWhile pyIsSpace = d :: ds :=
        List.dropWhile_cons_of_neg (by simp [hl d hd])
      rw [h2, ← hr, List.reverse_reverse]

theorem pystrip_head (l : List Char) :
    ∀ c, (pystrip l).head? = some c → pyIsSpace c = false := by
  intro c h
  unfold pystrip at h
  rw [List.head?_reverse] at h
  set l1 := l.dropWhile pyIsSpace with hl1
  set r2 := l1.reverse.dropWhile pyIsSpace with hr2
  have hne : r2 ≠ [] := by
    intro hnil
    rw [hnil] at h
    simp at h
  rw [getLast?_dropWhile _ _ hne, List.getLast?_reverse] at h
  exact head?_dropWhile_false pyIsSpace l c h

theorem pystrip_last (l : List Char) :
    ∀ c, (pystrip l).getLast? = some c → pyIsSpace c = false := by
  intro c h
  unfold pystrip at h
  rw [List.getLast?_reverse] at h
  exact head?_dropWhile_false pyIsSpace _ c h

theorem pystrip_idem (l : List Char) : pystrip (pystrip l) = pystrip l :=
  pystrip_of_clean _ (pystrip_head l) (pystrip_last l)

theorem pystripStr_mk (l : List Char) : pystripStr (String.mk l) = String.mk (pystrip l) := rfl

theorem pystripStr_idem (s : String) : pystripStr (pystripStr s) = pystripStr s := by
  show String.mk (pystrip (pystrip s.toList)) = String.mk (pystrip s.toList)
  rw [pystrip_idem]

/-- `ensure_correlation_id`'s generated fallback `f"ui-{int(datetime.now().timestamp() * 1000)}"`,
with the millisecond timestamp as an explicit parameter. -/
def generated_id (millis : Nat) : String :=
  String.mk ('u' :: 'i' :: '-' :: natDigits millis)

theorem pystrip_generated_id (millis : Nat) :
    pystripStr (generated_id millis) = generated_id millis := by
  have hh : ∀ c, ('u' :: 'i' :: '-' :: natDigits millis).head? = some c →
      pyIsSpace c = false := by
    intro c h
    simp only [List.head?_cons, Option.some.injEq] at h
    rw [← h]
    decide
  have hl : ∀ c, ('u' :: 'i' :: '-' :: natDigits millis).getLast? = some c →
      pyIsSpace c = false := by
    intro c h
    have hmem : c ∈ 'u' :: 'i' :: '-' :: natDigits millis :=
      List.mem_of_mem_getLast? (by rw [h]; exact rfl)
    simp only [List.mem_cons] at hmem
    rcases hmem with rfl | rfl | rfl | hmem
    · decide
    · decide
    · decide
    · obtain ⟨d, hd, rfl⟩ := natDigits_digits millis c hmem
      exact digit_not_space d hd
  show String.mk (pystrip ('u' :: 'i' :: '-' :: natDigits millis)) = _
  rw [pystrip_of_clean _ hh hl]
  rfl

theorem generated_id_ne_empty (millis : Nat) : generated_id millis ≠ "" := by
  intro h
  have : ('u' :: 'i' :: '-' :: natDigits millis) = [] := congrArg String.toList h
  simp at this

/-- `ensure_correlation_id(value)` from `server/app.py`:
returns `value.strip()` when `value` is truthy and non-blank, otherwise a
generated `ui-<millis>` id (`millis` models the wall-clock read). -/
def ensure_correlation_id (value : Option String) (millis : Nat) : String :=
  match value with
  | none => generated_id millis
  | some v => if v ≠ "" ∧ pystripStr v ≠ "" then pystripStr v else generated_id millis

/-- Outcome of one upstream HTTP exchange, as observed by
`AlphonseClient._request_json`.  `ok body` is a 2xx response whose body
decoded to `body`; the other constructors are the exceptions its
`except (URLError, HTTPError, TimeoutError, JSONDecodeError)` clause
absorbs. -/
inductive Upstream where
  | httpError (code : Nat) : Upstream
  | netError : Upstream
  | timeout : Upstream
  | invalidJson : Upstream
  | ok (body : Json) : Upstream

def Upstream.isFailure : Upstream → Bool
  | .ok _ => false
  | _ => true

/-- `AlphonseClient._request_json`: `none` models the `return None` paths
(exceptions and non-dict/non-list bodies); when `unwrap` is set, a dict
body's non-`None` `"data"` field is returned instead of the dict. -/
def request_json (u : Upstream) (unwrap : Bool) : Option Json :=
  match u with
  | .ok body =>
    match body with
    | .obj fields =>
      if unwrap then
        match lookupField fields "data" with
        | some d => if d.isNull then some (.obj fields) else some d
        | none => some (.obj fields)
      else some (.obj fields)
    | .arr elems => some (.arr elems)
    | _ => none
  | _ => none

/-- `AlphonseClient._valid_message_response`. -/
def valid_message_response : Option Json → Bool
  | some (.obj fields) =>
    match lookupField fields "message" with
    | some (.str _) => true
    | _ => false
  | _ => false

/-- `AlphonseClient._valid_status_response`: a dict whose `"runtime"`
field, if present and not `null`, must itself be a dict. -/
def valid_status_response : Option Json → Bool
  | some (.obj fields) =>
    match lookupField fields "runtime" with
    | none => true
    | some .null => true
    | some (.obj _) => true
    | some _ => false
  | _ => false

/-- Result dict of `AlphonseClient.send_message`. -/
structure SendResult where
  ok : Bool
  status : String
  correlation_id : String
  data : Option Json

/-- `AlphonseClient.send_message` (POST `/agent/message`,
`unwrap_data=False`): accepted only when the body is a dict with a string
`"message"` field, otherwise the `unavailable` sentinel. -/
def send_message (u : Upstream) (correlation_id : String) : SendResult :=
  let data := request_json u false
  if valid_message_response data then
    { ok := true, status := "accepted", correlation_id := correlation_id, data := data }
  else
    { ok := false, status := "unavailable", correlation_id := correlation_id, data := none }

structure PresenceResult where
  status : String
  note : String
deriving DecidableEq

/-- `AlphonseClient.presence_snapshot` (GET `/agent/status`): derives a
state from `runtime.state`/`runtime.status` via Python truthiness,
degrading to `disconnected` on any invalid response. -/
def presence_snapshot (u : Upstream) : PresenceResult :=
  let data := request_json u true
  if valid_status_response data then
    match data with
    | some (.obj fields) =>
      match lookupField fields "runtime" with
      | some (.obj runtimeFields) =>
        let v1 := (lookupField runtimeFields "state").getD .null
        let v2 := (lookupField runtimeFields "status").getD .null
        { status := pyStrCoerce (if pyTruthy v1 then v1 else if pyTruthy v2 then v2 else .str "connected"),
          note := "Alphonse API connected" }
      | _ => { status := "connected", note := "Alphonse API connected" }
    | _ => { status := "connected", note := "Alphonse API connected" }
  else
    { status := "disconnected", note := "Alphonse API unavailable" }

/-- `AlphonseClient._valid_delegate`. -/
def valid_delegate : Json → Bool
  | .obj fields =>
    (match lookupField fields "id" with
     | some (.str s) => decide (pystripStr s ≠ "")
     | _ => false) &&
    (match lookupField fields "name" with
     | some (.str s) => decide (pystripStr s ≠ "")
     | _ => false) &&
    (match lookupField fields "capabilities" with
     | some (.arr elems) => elems.all (fun item => match item with | .str _ => true | _ => false)
     | _ => false) &&
    (match lookupField fields "contract_version" with
     | some (.str s) => decide (pystripStr s ≠ "")
     | _ => false)
  | _ => false

/-- `AlphonseClient._extract_delegate_list`: bare list or dict with a
`"delegates"` list; keeps valid records, turning an empty filtered result
into `None`. -/
def extract_delegate_list (payload : Option Json) : Option (List Json) :=
  match payload with
  | some (.arr elems) =>
    let items := elems.filter valid_delegate
    if items.isEmpty then none else some items
  | some (.obj fields) =>
    match lookupField fields "delegates" with
    | some (.arr elems) =>
      let items := elems.filter valid_delegate
      if items.isEmpty then none else some items
    | _ => none
  | _ => none

/-- `AlphonseClient.list_delegates`: versioned endpoint first
(`/api/v1/delegates`, upstream outcome `u1`), falling back to the legacy
`/delegates` path (outcome `u2`). -/
def list_delegates (u1 u2 : Upstream) : Option (List Json) :=
  match extract_delegate_list (request_json u1 true) with
  | some delegates => some delegates
  | none => extract_delegate_list (request_json u2 true)

/-- A Python `float` value: IEEE binary64.  `finite m e` denotes the
exact value `m * 2 ^ e` (every finite double is such a rational), kept
canonical with `m` odd, or `m = 0 ∧ e = 0` for zero (the `-0.0`/`0.0`
distinction is collapsed: the two are `==`-equal in Python and both are
non-positive, so the code never returns a zero timeout). -/
inductive PyFloat where
  | finite (m : ℤ) (e : ℤ) : PyFloat
  | inf : PyFloat
  | negInf : PyFloat
  | nan : PyFloat
deriving DecidableEq

/-- Python `seconds <= 0` on a float (`nan <= 0` is `False`). -/
def PyFloat.le0 : PyFloat → Bool
  | .finite m _ => decide (m ≤ 0)
  | .inf => false
  | .negInf => true
  | .nan => false

/-- Maximal prefix of digits and underscores, with the remainder. -/
def takeRun : List Char → List Char × List Char
  | [] => ([], [])
  | c :: rest =>
    if c.isDigit || c = '_' then
      let (run, r) := takeRun rest
      (c :: run, r)
    else ([], c :: rest)

/-- PEP 515 `digitpart`: `digit (["_"] digit)*` — underscores only
between digits. -/
def validGroup : List Char → Bool
  | [] => false
  | c :: rest => c.isDigit && validGroupRest rest
where
  validGroupRest : List Char → Bool
    | [] => true
    | '_' :: c :: rest => c.isDigit && validGroupRest rest
    | ['_'] => false
    | c :: rest => c.isDigit && validGroupRest rest

/-- Digit values of a digitpart, underscores removed. -/
def groupDigits (run : List Char) : List Nat :=
  (run.filter Char.isDigit).map (fun c => c.toNat - 48)

def digitsToNat (ds : List Nat) : Nat :=
  ds.foldl (fun acc d => acc * 10 + d) 0

/-- Bit length of a natural number, fuel-structured so it reduces
definitionally (`fuel = n` suffices). -/
def bitlenAux : Nat → Nat → Nat
  | 0, _ => 0
  | fuel + 1, n => if n = 0 then 0 else bitlenAux fuel (n / 2) + 1

def bitlen (n : Nat) : Nat := bitlenAux n n

/-- Divide powers of two out of the mantissa (53 suffice for a rounded
binary64 mantissa), canonicalising `finite`. -/
def oddStrip : Nat → Nat → ℤ → Nat × ℤ
  | 0, m, e => (m, e)
  | fuel + 1, m, e => if m % 2 = 0 && m ≠ 0 then oddStrip fuel (m / 2) (e + 1) else (m, e)

def mkFinite (neg : Bool) (M : Nat) (E : ℤ) : PyFloat :=
  if M = 0 then .finite 0 0
  else
    let s := oddStrip 64 M E
    .finite (if neg then -(s.1 : ℤ) else (s.1 : ℤ)) s.2

/-- Round the exact positive decimal `n * 10 ^ p` to the nearest IEEE
binary64 value (round half to even): overflow to infinity at the usual
`2 ^ 1024 - 2 ^ 970` threshold, subnormal gradual underflow below
`2 ^ (-1022)`, underflow to zero below half the smallest subnormal.
Integer-only arithmetic: the value is `N / D`, its floor log2 `L` is
found from bit lengths, the rounding grid is `2 ^ E` with
`E = max (-1074) (L - 52)`. -/
def roundDecToDouble (neg : Bool) (n : Nat) (p : ℤ) : PyFloat :=
  if n = 0 then .finite 0 0
  else
    let N : Nat := if 0 ≤ p then n * 10 ^ p.toNat else n
    let D : Nat := if 0 ≤ p then 1 else 10 ^ (-p).toNat
    if D * (2 ^ 1024 - 2 ^ 970) ≤ N then (if neg then .negInf else .inf)
    else
      let L0 : ℤ := (bitlen N : ℤ) - (bitlen D : ℤ)
      let L : ℤ :=
        if D * 2 ^ (max 0 L0).toNat ≤ N * 2 ^ (max 0 (-L0)).toNat then L0 else L0 - 1
      let E : ℤ := max (-1074) (L - 52)
      let x : Nat := N * 2 ^ (max 0 (-E)).toNat
      let y : Nat := D * 2 ^ (max 0 E).toNat
      let q := x / y
      let r := x % y
      let M : Nat :=
        if 2 * r < y then q
        else if y < 2 * r then q + 1
        else if q % 2 = 0 then q else q + 1
      mkFinite neg M E

/-- The optional exponent and end-of-string of a float literal:
`e [sign] digitpart` (underscores allowed between exponent digits),
finishing with binary64 rounding of `n * 10 ^ p` adjusted by the
exponent. -/
def finishFloat (neg : Bool) (n : Nat) (p : ℤ) : List Char → Option PyFloat
  | [] => some (roundDecToDouble neg n p)
  | 'e' :: r =>
    let se : Bool × List Char :=
      match r with
      | '-' :: rr => (true, rr)
      | '+' :: rr => (false, rr)
      | _ => (false, r)
    let (erun, r2) := takeRun se.2
    if validGroup erun && r2.isEmpty then
      let ev : ℤ := (digitsToNat (groupDigits erun) : ℤ)
      some (roundDecToDouble neg n (p + (if se.1 then -ev else ev)))
    else none
  | _ => none

/-- Python `float(s)` on an already lower-cased, stripped string:
optional sign, then the `inf`/`infinity`/`nan` literals or a decimal
mantissa (`1`, `1.`, `.5`, `1.5`, PEP 515 underscore grouping) with
optional exponent, rounded to the nearest IEEE binary64 value. -/
def pyParseFloat (s : String) : Option PyFloat :=
  let signed : Bool × List Char :=
    match s.toList with
    | '-' :: r => (true, r)
    | '+' :: r => (false, r)
    | _ => (false, s.toList)
  let neg := signed.1
  let body := signed.2
  if body = "inf".toList || body = "infinity".toList then
    some (if neg then .negInf else .inf)
  else if body = "nan".toList then some .nan
  else
    let (irun, r1) := takeRun body
    match r1 with
    | '.' :: r2 =>
      let (frun, r3) := takeRun r2
      if (irun.isEmpty || validGroup irun) && (frun.isEmpty || validGroup frun) &&
          !(irun.isEmpty && frun.isEmpty) then
        let fdigits := groupDigits frun
        finishFloat neg (digitsToNat (groupDigits irun ++ fdigits))
          (-(fdigits.length : ℤ)) r3
      else none
    | _ =>
      if validGroup irun then
        finishFloat neg (digitsToNat (groupDigits irun)) 0 r1
      else none

/-- `_read_timeout_seconds(name)` from `server/clients/alphonse_api.py`,
with the environment variable's value as the explicit argument. -/
def read_timeout_seconds (env : Option String) : Option PyFloat :=
  match env with
  | none => none
  | some value =>
    let normalized := pyLower (pystripStr value)
    if normalized = "" then none
    else if normalized = "none" || normalized = "infinite" || normalized = "inf" || normalized = "0" then none
    else
      match pyParseFloat normalized with
      | none => none
      | some seconds => if seconds.le0 then none else some seconds

/-- The outbound request `AlphonseClient.send_message` performs:
`__init__` stores `_read_timeout_seconds("ALPHONSE_API_MESSAGE_TIMEOUT_SECONDS")`
in `self.message_timeout`, and `send_message` POSTs `/agent/message` with
exactly that timeout (`None` means no per-request timeout). -/
structure OutboundRequest where
  method : String
  path : String
  timeout : Option PyFloat
deriving DecidableEq

def send_message_request (env : Option String) : OutboundRequest :=
  { method := "POST", path := "/agent/message", timeout := read_timeout_seconds env }

/-- `ChatMessage` dataclass from `server/app.py`. -/
structure ChatMessage where
  role : String
  content : String
  timestamp : String
  correlation_id : String
deriving DecidableEq

/-- `DelegationCard` dataclass from `server/app.py`. -/
structure DelegationCard where
  delegate_id : String
  delegate_name : String
  capability : String
  command : String
  status : String
  timestamp : String
  correlation_id : String
deriving DecidableEq

/-- One `CHAT_TIMELINE` entry: the code stores dicts
`\x7b"type": "message"|"delegation", ...\x7d` whose payload always matches the
tag, so the tagged union is faithful. -/
inductive TimelineEntry where
  | message (m : ChatMessage) : TimelineEntry
  | delegation (d : DelegationCard) : TimelineEntry
deriving DecidableEq

/-- The entry the reply-resolution scan is looking for: a message with the
given correlation id and role `assistant`. -/
def isPendingFor (cid : String) : TimelineEntry → Bool
  | .message m => m.correlation_id == cid && m.role == "assistant"
  | .delegation _ => false

/-- The newest-to-oldest scan of `_resolve_async_assistant_reply`,
written right-recursively: a match later in the list (newer) takes
precedence, mirroring `for entry in reversed(CHAT_TIMELINE)` stopping at
the first hit.  `none` means no entry matched. -/
def resolveScan (cid reply now : String) : List TimelineEntry → Option (List TimelineEntry)
  | [] => none
  | e :: rest =>
    match resolveScan cid reply now rest with
    | some rest2 => some (e :: rest2)
    | none =>
      match e with
      | .message m =>
        if m.correlation_id == cid && m.role == "assistant" then
          some (.message { m with content := reply, timestamp := now } :: rest)
        else none
      | .delegation _ => none

/-- The timeline mutation of `_resolve_async_assistant_reply` (the spec's
`resolve_pending_reply`): rewrite the newest pending assistant message in
place, or append a fresh assistant message when none matches. -/
def resolve_pending_reply (tl : List TimelineEntry) (cid reply now : String) : List TimelineEntry :=
  match resolveScan cid reply now tl with
  | some tl2 => tl2
  | none =>
    tl ++ [.message { role := "assistant", content := reply, timestamp := now, correlation_id := cid }]

/-- The reply text `_resolve_async_assistant_reply` derives from the
dispatch result: the upstream `data.message` when it is a non-blank
string on an `ok` dispatch, else the unavailable notice. -/
def reply_text_of (dispatch : SendResult) : String :=
  if dispatch.ok then
    match dispatch.data with
    | some d =>
      match d.getField "message" with
      | some (.str s) => if pystripStr s ≠ "" then s else "Alphonse is unavailable."
      | _ => "Alphonse is unavailable."
    | none => "Alphonse is unavailable."
  else "Alphonse is unavailable."

/-- `_resolve_async_assistant_reply(content, correlation_id)` acting on a
timeline state: dispatches through the client against upstream outcome `u`
and resolves the pending reply (`now` models the `now_iso()` read). -/
def resolve_async_assistant_reply (u : Upstream) (content cid now : String)
    (tl : List TimelineEntry) : List TimelineEntry :=
  resolve_pending_reply tl cid (reply_text_of (send_message u cid)) now

/-- `_append_chat_turn`: user entry then `"Thinking..."` assistant
placeholder, both with the same correlation id (`nowU`/`nowA` model the
two `now_iso()` reads). -/
def append_chat_turn (tl : List TimelineEntry) (user_content cid nowU nowA : String) :
    List TimelineEntry :=
  tl ++ [.message { role := "user", content := user_content, timestamp := nowU, correlation_id := cid },
         .message { role := "assistant", content := "Thinking...", timestamp := nowA, correlation_id := cid }]

/-- Observable outcome of the `POST /chat/messages` handler: HTTP status,
`X-UI-Event-Type`, `X-UI-Ok`, `X-UI-Correlation-Id`, and the timeline
state after the handler ran. -/
structure HandlerResponse where
  status : Nat
  eventType : String
  okHeader : Bool
  corrId : String
  timeline : List TimelineEntry
deriving DecidableEq

/-- The `chat_messages` handler (`POST /chat/messages`): trims the form
field, 400s on blank, otherwise appends the chat turn (the background
worker it spawns is modelled separately by `resolve_async_assistant_reply`). -/
def chat_messages (formMessage formCid : Option String) (millis : Nat) (nowU nowA : String)
    (tl : List TimelineEntry) : HandlerResponse :=
  let content := pystripStr (formMessage.getD "")
  let cid := ensure_correlation_id formCid millis
  if content = "" then
    { status := 400, eventType := "ui.command.failed", okHeader := false, corrId := cid,
      timeline := tl }
  else
    { status := 200, eventType := "ui.command.received", okHeader := true, corrId := cid,
      timeline := append_chat_turn tl content cid nowU nowA }

/-- Events on the `/stream/chat` SSE connection. -/
inductive StreamEvent where
  | start (cid : String) : StreamEvent
  | chunk (cid text : String) : StreamEvent
  | complete (cid : String) : StreamEvent
deriving DecidableEq

def StreamEvent.isComplete : StreamEvent → Bool
  | .complete _ => true
  | _ => false

def StreamEvent.isChunk : StreamEvent → Bool
  | .chunk _ _ => true
  | _ => false

/-- The `next(... for entry in reversed(CHAT_TIMELINE) ...)` source scan
of `stream_chat`: newest message entry (any role) with the correlation
id.  Written right-recursively so a later (newer) entry takes precedence. -/
def newestMessageFor (tl : List TimelineEntry) (cid : String) : Option ChatMessage :=
  match tl with
  | [] => none
  | e :: rest =>
    match newestMessageFor rest cid with
    | some m => some m
    | none =>
      match e with
      | .message m => if m.correlation_id == cid then some m else none
      | .delegation _ => none

/-- The canned reply string of `stream_chat`. -/
def stream_reply (tl : List TimelineEntry) (cid : String) : String :=
  let source_text :=
    match newestMessageFor tl cid with
    | some m => m.content
    | none => "Message received."
  "Alphonse stream placeholder: " ++ source_text

/-- The full event sequence one `/stream/chat?correlation_id=...`
connection emits (pacing aside): `chat_start`, one `chat_chunk` per
non-empty part of `reply.split(" ")` (each chunk carries the word plus a
trailing space), then `chat_complete`. -/
def stream_chat_events (tl : List TimelineEntry) (rawCid : Option String) (millis : Nat) :
    List StreamEvent :=
  let cid := ensure_correlation_id rawCid millis
  let chunks := pyWords (stream_reply tl cid)
  .start cid :: (chunks.map (fun part => .chunk cid (part ++ " "))) ++ [.complete cid]

/-- `Delegate` dataclass from `server/app.py`. -/
structure Delegate where
  id : String
  name : String
  capabilities : List String
  contract_version : String
  pricing_model : Option String
  status : String
  last_seen : String
deriving DecidableEq

/-- `str(raw.get(key) or default)` for string fields of `_parse_delegate`. -/
def pyGetOrDefaultStr (raw : Json) (key dflt : String) : String :=
  match raw.getField key with
  | some v => if pyTruthy v then pyStrCoerce v else dflt
  | none => dflt

/-- `_parse_delegate` from `server/app.py` (`now` models the `now_iso()`
fallback for `last_seen`). -/
def parse_delegate (raw : Json) (now : String) : Option Delegate :=
  let delegate_id := pystripStr (pyGetOrDefaultStr raw "id" "")
  let name := pystripStr (pyGetOrDefaultStr raw "name" "")
  if delegate_id = "" || name = "" then none
  else
    some
      { id := delegate_id
        name := name
        capabilities :=
          match raw.getField "capabilities" with
          | some (.arr elems) =>
            (elems.map (fun item => pystripStr (pyStrCoerce item))).filter (fun s => decide (s ≠ ""))
          | _ => []
        contract_version := pyGetOrDefaultStr raw "contract_version" "delegate.v1"
        pricing_model :=
          match raw.getField "pricing_model" with
          | some v => if v.isNull then none else some (pyStrCoerce v)
          | none => none
        status := pyGetOrDefaultStr raw "status" "unknown"
        last_seen := pyGetOrDefaultStr raw "last_seen" now }

/-- The hardcoded `LOCAL_DELEGATES` fallback map (`boot` models the
`now_iso()` read at module initialisation). -/
def LOCAL_DELEGATES (boot : String) : List (String × Delegate) :=
  [("ops-runner",
    { id := "ops-runner", name := "Ops Runner",
      capabilities := ["incident_triage", "deploy_checks", "status_digest"],
      contract_version := "delegate.v1", pricing_model := some "per-task",
      status := "available", last_seen := boot }),
   ("home-sentinel",
    { id := "home-sentinel", name := "Home Sentinel",
      capabilities := ["presence_watch", "device_health", "quiet_hours_guard"],
      contract_version := "delegate.v1", pricing_model := none,
      status := "busy", last_seen := boot }),
   ("memory-steward",
    { id := "memory-steward", name := "Memory Steward",
      capabilities := ["summary_pack", "habit_snapshot", "timeline_review"],
      contract_version := "delegate.v1", pricing_model := some "monthly",
      status := "available", last_seen := boot })]

/-- Insertion with Python-dict semantics: an existing key keeps its
position and gets the new value, a new key is appended. -/
def dictInsert (m : List (String × Delegate)) (k : String) (v : Delegate) :
    List (String × Delegate) :=
  if m.any (fun p => p.1 == k) then m.map (fun p => if p.1 == k then (k, v) else p)
  else m ++ [(k, v)]

/-- The dict comprehension of `get_delegate_registry`: parsed remote
records keyed by delegate id, skipping records `_parse_delegate` rejects. -/
def buildRegistry (items : List Json) (now : String) : List (String × Delegate) :=
  items.foldl
    (fun acc item =>
      match parse_delegate item now with
      | some d => dictInsert acc d.id d
      | none => acc)
    []

/-- `get_delegate_registry` from `server/app.py`: the remote registry when
`list_delegates` yielded records and at least one parses, else the
hardcoded fallback. -/
def get_delegate_registry (u1 u2 : Upstream) (now boot : String) :
    List (String × Delegate) :=
  match list_delegates u1 u2 with
  | some remote =>
    if remote.isEmpty then LOCAL_DELEGATES boot
    else
      let parsed := buildRegistry remote now
      if parsed.isEmpty then LOCAL_DELEGATES boot else parsed
  | none => LOCAL_DELEGATES boot

theorem ensure_correlation_id_strip_or_gen (v : Option String) (m : Nat) :
    ensure_correlation_id v m = generated_id m ∨
    ∃ s, v = some s ∧ ensure_correlation_id v m = pystripStr s ∧ pystripStr s ≠ "" := by
  match v with
  | none => exact Or.inl rfl
  | some s =>
    by_cases h : s ≠ "" ∧ pystripStr s ≠ ""
    · exact Or.inr ⟨s, rfl, by simp [ensure_correlation_id, h], h.2⟩
    · left
      simp only [ensure_correlation_id]
      rw [if_neg h]

/-- C8: `ensure_correlation_id(None)` and `ensure_correlation_id("")`
return the generated `ui-<millis>` id, which is non-blank;
`ensure_correlation_id("abc")` is `"abc"` unchanged; and the function is
idempotent on every one of its outputs. -/
theorem ensure_correlation_id_contract :
    (∀ millis, ensure_correlation_id none millis = generated_id millis ∧
      ensure_correlation_id (some "") millis = generated_id millis) ∧
    (∀ millis, pystripStr (generated_id millis) ≠ "") ∧
    (∀ millis, ensure_correlation_id (some "abc") millis = "abc") ∧
    (∀ v m1 m2, ensure_correlation_id (some (ensure_correlation_id v m1)) m2 =
      ensure_correlation_id v m1) := by
  refine ⟨?_, ?_, ?_, ?_⟩
  · intro millis
    refine ⟨rfl, ?_⟩
    simp [ensure_correlation_id]
  · intro millis
    rw [pystrip_generated_id]
    exact generated_id_ne_empty millis
  · intro millis
    have habc : pystripStr "abc" = "abc" := by decide
    simp [ensure_correlation_id, habc]
  · intro v m1 m2
    rcases ensure_correlation_id_strip_or_gen v m1 with hgen | ⟨s, hv, hstrip, hne⟩
    · rw [hgen]
      simp only [ensure_correlation_id]
      rw [if_pos ⟨generated_id_ne_empty m1, by rw [pystrip_generated_id]; exact generated_id_ne_empty m1⟩,
        pystrip_generated_id]
    · rw [hstrip]
      simp only [ensure_correlation_id]
      rw [if_pos ⟨hne, by rw [pystripStr_idem]; exact hne⟩, pystripStr_idem]

/-- C3: a non-blank `message` form field yields a 200 response tagged
`ui.command.received` / `X-UI-Ok: true` and appends exactly the user
entry (trimmed content) followed by the `"Thinking..."` assistant
placeholder, both under the same correlation id; a missing or blank field
yields a 400 tagged `ui.command.failed` / `X-UI-Ok: false` with the
timeline unchanged; and the correlation id is server-generated when the
form field is absent or blank. -/
theorem chat_messages_contract (formMessage formCid : Option String) (millis : Nat)
    (nowU nowA : String) (tl : List TimelineEntry) :
    (pystripStr (formMessage.getD "") ≠ "" →
      chat_messages formMessage formCid millis nowU nowA tl =
        { status := 200, eventType := "ui.command.received", okHeader := true,
          corrId := ensure_correlation_id formCid millis,
          timeline := tl ++
            [.message { role := "user", content := pystripStr (formMessage.getD ""),
                        timestamp := nowU,
                        correlation_id := ensure_correlation_id formCid millis },
             .message { role := "assistant", content := "Thinking...", timestamp := nowA,
                        correlation_id := ensure_correlation_id formCid millis }] }) ∧
    (pystripStr (formMessage.getD "") = "" →
      chat_messages formMessage formCid millis nowU nowA tl =
        { status := 400, eventType := "ui.command.failed", okHeader := false,
          corrId := ensure_correlation_id formCid millis, timeline := tl }) ∧
    ((formCid = none ∨ ∃ s, formCid = some s ∧ pystripStr s = "") →
      (chat_messages formMessage formCid millis nowU nowA tl).corrId = generated_id millis) := by
  refine ⟨?_, ?_, ?_⟩
  · intro h
    simp only [chat_messages, append_chat_turn, if_neg h]
  · intro h
    simp only [chat_messages, if_pos h]
  · intro h
    have hcid : ensure_correlation_id formCid millis = generated_id millis := by
      rcases h with rfl | ⟨s, rfl, hs⟩
      · rfl
      · simp only [ensure_correlation_id]
        rw [if_neg]
        rintro ⟨h1, h2⟩
        exact h2 hs
    simp only [chat_messages]
    split <;> simp [hcid]

/-- Witness for the C3 theorem at concrete inputs. -/
theorem chat_messages_contract_witness :
    chat_messages (some "  hello  ") none 7 "t0" "t1" [] =
      { status := 200, eventType := "ui.command.received", okHeader := true, corrId := "ui-7",
        timeline :=
          [.message { role := "user", content := "hello", timestamp := "t0",
                      correlation_id := "ui-7" },
           .message { role := "assistant", content := "Thinking...", timestamp := "t1",
                      correlation_id := "ui-7" }] } ∧
    chat_messages (some "   ") (some "abc") 7 "t0" "t1" [] =
      { status := 400, eventType := "ui.command.failed", okHeader := false, corrId := "abc",
        timeline := [] } ∧
    (chat_messages (some "hi") (some "  ") 7 "t0" "t1" []).corrId = "ui-7" := by
  refine ⟨?_, ?_, ?_⟩
  · have h := (chat_messages_contract (some "  hello  ") none 7 "t0" "t1" []).1 (by decide)
    rw [h]
    rfl
  · have h := (chat_messages_contract (some "   ") (some "abc") 7 "t0" "t1" []).2.1 (by decide)
    rw [h]
    rfl
  · have h := (chat_messages_contract (some "hi") (some "  ") 7 "t0" "t1" []).2.2
      (Or.inr ⟨"  ", rfl, by decide⟩)
    rw [h]
    rfl

theorem resolveScan_eq_none (cid reply now : String) (tl : List TimelineEntry)
    (h : ∀ e ∈ tl, isPendingFor cid e = false) :
    resolveScan cid reply now tl = none := by
  induction tl with
  | nil => rfl
  | cons e rest ih =>
    have hrest := ih (fun x hx => h x (List.mem_cons_of_mem _ hx))
    have he := h e (List.mem_cons_self _ _)
    simp only [resolveScan, hrest]
    cases e with
    | message m =>
      simp only [isPendingFor] at he
      simp [he]
    | delegation d => rfl

theorem resolveScan_found (cid reply now : String) (pre suf : List TimelineEntry)
    (m : ChatMessage) (hrole : m.role = "assistant") (hcid : m.correlation_id = cid)
    (hsuf : ∀ e ∈ suf, isPendingFor cid e = false) :
    resolveScan cid reply now (pre ++ .message m :: suf) =
      some (pre ++ .message { m with content := reply, timestamp := now } :: suf) := by
  induction pre with
  | nil =>
    simp only [List.nil_append, resolveScan, resolveScan_eq_none cid reply now suf hsuf]
    rw [if_pos (by simp [hcid, hrole])]
  | cons e pre ih =>
    simp only [List.cons_append, resolveScan, List.append_eq]
    rw [ih]

/-- C1: reply resolution.  When no assistant message with the correlation
id is in the timeline, exactly one assistant message is appended at the
end (length grows by 1).  When one is, the newest such entry (no match
after it) has its content and timestamp replaced in place, every other
entry and the length unchanged.  And for the canonical turn
(user + `"Thinking..."` placeholder), resolving with an upstream reply
`"done"` yields exactly one assistant entry for the id, content
`"done"`, total length 2. -/
theorem resolve_pending_reply_contract :
    (∀ tl cid reply now, (∀ e ∈ tl, isPendingFor cid e = false) →
      resolve_pending_reply tl cid reply now =
        tl ++ [.message { role := "assistant", content := reply, timestamp := now,
                          correlation_id := cid }] ∧
      (resolve_pending_reply tl cid reply now).length = tl.length + 1) ∧
    (∀ pre suf m cid reply now, m.role = "assistant" → m.correlation_id = cid →
      (∀ e ∈ suf, isPendingFor cid e = false) →
      resolve_pending_reply (pre ++ .message m :: suf) cid reply now =
        pre ++ .message { m with content := reply, timestamp := now } :: suf ∧
      (resolve_pending_reply (pre ++ .message m :: suf) cid reply now).length =
        (pre ++ TimelineEntry.message m :: suf).length) ∧
    (∀ content cid nowU nowA now2,
      resolve_async_assistant_reply (.ok (.obj [("message", .str "done")])) content cid now2
          (append_chat_turn [] content cid nowU nowA) =
        [.message { role := "user", content := content, timestamp := nowU,
                    correlation_id := cid },
         .message { role := "assistant", content := "done", timestamp := now2,
                    correlation_id := cid }] ∧
      ((resolve_async_assistant_reply (.ok (.obj [("message", .str "done")])) content cid now2
          (append_chat_turn [] content cid nowU nowA)).filter (isPendingFor cid)).length = 1) := by
  refine ⟨?_, ?_, ?_⟩
  · intro tl cid reply now h
    have hscan := resolveScan_eq_none cid reply now tl h
    constructor
    · simp only [resolve_pending_reply, hscan]
    · simp only [resolve_pending_reply, hscan, List.length_append, List.length_singleton]
  · intro pre suf m cid reply now hrole hcid hsuf
    have hscan := resolveScan_found cid reply now pre suf m hrole hcid hsuf
    constructor
    · simp only [resolve_pending_reply, hscan]
    · simp only [resolve_pending_reply, hscan]
      simp
  · intro content cid nowU nowA now2
    have hreply : reply_text_of (send_message (.ok (.obj [("message", .str "done")])) cid) =
        "done" := by
      have hd : pystripStr "done" = "done" := rfl
      simp [send_message, request_json, valid_message_response, lookupField,
        reply_text_of, Json.getField, hd]
    constructor
    · simp only [resolve_async_assistant_reply, hreply, append_chat_turn, List.nil_append,
        resolve_pending_reply, resolveScan]
      simp [isPendingFor]
    · simp only [resolve_async_assistant_reply, hreply, append_chat_turn, List.nil_append,
        resolve_pending_reply, resolveScan]
      simp [isPendingFor]

/-- Witness for the C1 theorem at concrete inputs. -/
theorem resolve_pending_reply_contract_witness :
    resolve_pending_reply [] "X" "done" "t" =
      [.message { role := "assistant", content := "done", timestamp := "t",
                  correlation_id := "X" }] ∧
    resolve_pending_reply
        [.message { role := "user", content := "hi", timestamp := "t0", correlation_id := "X" },
         .message { role := "assistant", content := "Thinking...", timestamp := "t1",
                    correlation_id := "X" }] "X" "done" "t2" =
      [.message { role := "user", content := "hi", timestamp := "t0", correlation_id := "X" },
       .message { role := "assistant", content := "done", timestamp := "t2",
                  correlation_id := "X" }] ∧
    resolve_async_assistant_reply (.ok (.obj [("message", .str "done")])) "hi" "X" "t2"
        (append_chat_turn [] "hi" "X" "t0" "t1") =
      [.message { role := "user", content := "hi", timestamp := "t0", correlation_id := "X" },
       .message { role := "assistant", content := "done", timestamp := "t2",
                  correlation_id := "X" }] := by
  refine ⟨?_, ?_, ?_⟩
  · exact (resolve_pending_reply_contract.1 [] "X" "done" "t" (by intro e he; cases he)).1
  · have h := (resolve_pending_reply_contract.2.1
      [.message { role := "user", content := "hi", timestamp := "t0", correlation_id := "X" }] []
      { role := "assistant", content := "Thinking...", timestamp := "t1", correlation_id := "X" }
      "X" "done" "t2" rfl rfl (by intro e he; cases he)).1
    simpa using h
  · exact (resolve_pending_reply_contract.2.2 "hi" "X" "t0" "t1" "t2").1

theorem complete_last_aux (ms : List StreamEvent) (x : StreamEvent)
    (hms : ∀ e ∈ ms, e.isComplete = false) :
    ∀ l1 l2 (y : StreamEvent), y.isComplete = true → ms ++ [x] = l1 ++ y :: l2 → l2 = [] := by
  induction ms with
  | nil =>
    intro l1 l2 y hy heq
    cases l1 with
    | nil =>
      simp only [List.nil_append, List.cons.injEq] at heq
      exact heq.2.symm
    | cons a l1 =>
      simp only [List.nil_append, List.cons_append, List.cons.injEq] at heq
      exact absurd heq.2.symm (by simp)
  | cons mhd mtl ih =>
    intro l1 l2 y hy heq
    cases l1 with
    | nil =>
      simp only [List.nil_append, List.cons_append, List.cons.injEq] at heq
      rw [← heq.1] at hy
      rw [hms mhd (List.mem_cons_self _ _)] at hy
      cases hy
    | cons a l1 =>
      simp only [List.cons_append, List.cons.injEq] at heq
      exact ih (fun e he => hms e (List.mem_cons_of_mem _ he)) l1 l2 y hy heq.2

/-- C4: a `/stream/chat` connection's event list is exactly one
`chat_start`, one `chat_chunk` per word (in word order) of the reply
template — `"Alphonse stream placeholder: "` followed by the newest
matching message's content, or `"Message received."` when none matches —
and one final `chat_complete`, with nothing (in particular no chunk)
after the completion event. -/
theorem stream_chat_events_contract (tl : List TimelineEntry) (rawCid : Option String)
    (millis : Nat) :
    (stream_chat_events tl rawCid millis =
      .start (ensure_correlation_id rawCid millis) ::
        (pyWords (stream_reply tl (ensure_correlation_id rawCid millis))).map
          (fun part => .chunk (ensure_correlation_id rawCid millis) (part ++ " ")) ++
        [.complete (ensure_correlation_id rawCid millis)]) ∧
    (stream_reply tl (ensure_correlation_id rawCid millis) =
      "Alphonse stream placeholder: " ++
        (match newestMessageFor tl (ensure_correlation_id rawCid millis) with
         | some m => m.content
         | none => "Message received.")) ∧
    (∀ l1 l2 y, StreamEvent.isComplete y = true →
      stream_chat_events tl rawCid millis = l1 ++ y :: l2 → l2 = []) := by
  refine ⟨rfl, rfl, ?_⟩
  intro l1 l2 y hy heq
  have hshape : stream_chat_events tl rawCid millis =
      (.start (ensure_correlation_id rawCid millis) ::
        (pyWords (stream_reply tl (ensure_correlation_id rawCid millis))).map
          (fun part => .chunk (ensure_correlation_id rawCid millis) (part ++ " "))) ++
        [.complete (ensure_correlation_id rawCid millis)] := by
    simp [stream_chat_events]
  rw [hshape] at heq
  refine complete_last_aux _ _ ?_ l1 l2 y hy heq
  intro e he
  rcases List.mem_cons.mp he with rfl | he
  · rfl
  · obtain ⟨part, hpart, rfl⟩ := List.mem_map.mp he
    rfl

/-- Witness for the C4 theorem at concrete inputs. -/
theorem stream_chat_events_contract_witness :
    stream_chat_events [] (some "Z") 0 =
      [.start "Z", .chunk "Z" "Alphonse ", .chunk "Z" "stream ", .chunk "Z" "placeholder: ",
       .chunk "Z" "Message ", .chunk "Z" "received. ", .complete "Z"] ∧
    ([] : List StreamEvent) = [] := by
  constructor
  · rfl
  · exact (stream_chat_events_contract [] (some "Z") 0).2.2
      [.start "Z", .chunk "Z" "Alphonse ", .chunk "Z" "stream ", .chunk "Z" "placeholder: ",
       .chunk "Z" "Message ", .chunk "Z" "received. "] [] (.complete "Z") rfl rfl

theorem pyWords_placeholder_length (s : String) :
    3 ≤ (pyWords ("Alphonse stream placeholder: " ++ s)).length := by
  unfold pyWords
  have hdata : ("Alphonse stream placeholder: " ++ s).toList =
      "Alphonse".toList ++ ' ' ::
        ("stream".toList ++ ' ' :: ("placeholder:".toList ++ ' ' :: s.toList)) := rfl
  rw [hdata, splitSp_append_space, splitSp_append_space, splitSp_append_space]
  have h1 : splitSp "Alphonse".toList = ["Alphonse".toList] := rfl
  have h2 : splitSp "stream".toList = ["stream".toList] := rfl
  have h3 : splitSp "placeholder:".toList = ["placeholder:".toList] := rfl
  rw [h1, h2, h3]
  simp only [List.singleton_append, List.cons_append, List.filter_cons]
  simp

/-- C10: every `/stream/chat` connection emits at least three
`chat_chunk` events — the fixed `"Alphonse stream placeholder: "` prefix
always contributes three words and the fallback source text covers the
no-matching-message case — so the degraded zero-chunk
start-then-complete stream is unreachable. -/
theorem stream_chat_min_chunks (tl : List TimelineEntry) (rawCid : Option String)
    (millis : Nat) :
    3 ≤ ((stream_chat_events tl rawCid millis).filter StreamEvent.isChunk).length := by
  have hmap : ∀ (cid : String) (ws : List String),
      ((ws.map (fun part => StreamEvent.chunk cid (part ++ " "))).filter
        StreamEvent.isChunk).length = ws.length := by
    intro cid ws
    induction ws with
    | nil => rfl
    | cons w ws ih =>
      simp only [List.map_cons, List.filter_cons, StreamEvent.isChunk, if_pos,
        List.length_cons]
      rw [ih]
  have hev : (stream_chat_events tl rawCid millis).filter StreamEvent.isChunk =
      ((pyWords (stream_reply tl (ensure_correlation_id rawCid millis))).map
        (fun part => StreamEvent.chunk (ensure_correlation_id rawCid millis)
          (part ++ " "))).filter StreamEvent.isChunk := by
    simp [stream_chat_events, List.filter_cons, List.filter_append, StreamEvent.isChunk]
  rw [hev, hmap]
  have hreply : stream_reply tl (ensure_correlation_id rawCid millis) =
      "Alphonse stream placeholder: " ++
        (match newestMessageFor tl (ensure_correlation_id rawCid millis) with
         | some m => m.content
         | none => "Message received.") := rfl
  rw [hreply]
  exact pyWords_placeholder_length _

/-- C2: every upstream failure (HTTP error status, network error,
timeout, undecodable body) and every wrong-shape body yield the
`unavailable` sentinel from `send_message` and the `disconnected`
snapshot from `presence_snapshot`; a JSON object body with a string
`"message"` field is accepted.  (No-raise is by construction: both
operations are total functions of the upstream outcome.) -/
theorem client_degradation_contract :
    (∀ u cid, u.isFailure = true →
      send_message u cid =
        { ok := false, status := "unavailable", correlation_id := cid, data := none } ∧
      presence_snapshot u =
        { status := "disconnected", note := "Alphonse API unavailable" }) ∧
    (∀ body cid, valid_message_response (request_json (.ok body) false) = false →
      send_message (.ok body) cid =
        { ok := false, status := "unavailable", correlation_id := cid, data := none }) ∧
    (∀ body, valid_status_response (request_json (.ok body) true) = false →
      presence_snapshot (.ok body) =
        { status := "disconnected", note := "Alphonse API unavailable" }) ∧
    (∀ fields s cid, lookupField fields "message" = some (.str s) →
      send_message (.ok (.obj fields)) cid =
        { ok := true, status := "accepted", correlation_id := cid,
          data := some (.obj fields) }) := by
  refine ⟨?_, ?_, ?_, ?_⟩
  · intro u cid hu
    cases u with
    | httpError code => exact ⟨rfl, rfl⟩
    | netError => exact ⟨rfl, rfl⟩
    | timeout => exact ⟨rfl, rfl⟩
    | invalidJson => exact ⟨rfl, rfl⟩
    | ok body => cases hu
  · intro body cid h
    simp [send_message, h]
  · intro body h
    simp [presence_snapshot, h]
  · intro fields s cid h
    simp [send_message, request_json, valid_message_response, h]

/-- Witness for the C2 theorem at concrete inputs. -/
theorem client_degradation_contract_witness :
    send_message .timeout "c1" =
      { ok := false, status := "unavailable", correlation_id := "c1", data := none } ∧
    presence_snapshot .netError =
      { status := "disconnected", note := "Alphonse API unavailable" } ∧
    send_message (.ok (.arr [])) "c2" =
      { ok := false, status := "unavailable", correlation_id := "c2", data := none } ∧
    presence_snapshot (.ok (.obj [("runtime", .str "bad")])) =
      { status := "disconnected", note := "Alphonse API unavailable" } ∧
    send_message (.ok (.obj [("message", .str "hi")])) "c3" =
      { ok := true, status := "accepted", correlation_id := "c3",
        data := some (.obj [("message", .str "hi")]) } := by
  refine ⟨?_, ?_, ?_, ?_, ?_⟩
  · exact (client_degradation_contract.1 .timeout "c1" rfl).1
  · exact (client_degradation_contract.1 .netError "c1" rfl).2
  · exact client_degradation_contract.2.1 (.arr []) "c2" rfl
  · exact client_degradation_contract.2.2.1 (.obj [("runtime", .str "bad")]) rfl
  · exact client_degradation_contract.2.2.2 [("message", .str "hi")] "hi" "c3" rfl

/-- The delegate validity predicate as the spec words it: a JSON object
whose `id` and `name` are non-blank strings, whose `capabilities` field
is a list in which every element is a string, and whose
`contract_version` is a non-blank string. -/
def spec_valid_delegate (j : Json) : Bool :=
  (match j with
   | .obj _ => true
   | _ => false) &&
  (match j.getField "id" with
   | some (.str s) => decide (pystripStr s ≠ "")
   | _ => false) &&
  (match j.getField "name" with
   | some (.str s) => decide (pystripStr s ≠ "")
   | _ => false) &&
  (match j.getField "capabilities" with
   | some (.arr elems) => elems.all (fun e => match e with | .str _ => true | _ => false)
   | _ => false) &&
  (match j.getField "contract_version" with
   | some (.str s) => decide (pystripStr s ≠ "")
   | _ => false)

/-- A structurally valid delegate record. -/
def sample_valid_delegate : Json :=
  .obj [("id", .str "ops-runner"), ("name", .str "Ops Runner"),
        ("capabilities", .arr [.str "incident_triage"]),
        ("contract_version", .str "delegate.v1")]

/-- A malformed delegate record: the `name` field is missing. -/
def sample_missing_name : Json :=
  .obj [("id", .str "ghost"), ("capabilities", .arr []),
        ("contract_version", .str "delegate.v1")]

/-- C5: the client's delegate filter keeps exactly the records
satisfying the spec's validity predicate (and no others), silently
dropping the rest; in particular a remote list of one valid record and
one record missing `name` yields exactly the valid one. -/
theorem valid_delegate_filter_contract :
    (∀ j, valid_delegate j = spec_valid_delegate j) ∧
    (∀ elems, extract_delegate_list (some (.arr elems)) =
      (if (elems.filter spec_valid_delegate).isEmpty then none
       else some (elems.filter spec_valid_delegate))) ∧
    (∀ fields elems, lookupField fields "delegates" = some (.arr elems) →
      extract_delegate_list (some (.obj fields)) =
        (if (elems.filter spec_valid_delegate).isEmpty then none
         else some (elems.filter spec_valid_delegate))) ∧
    (∀ u2, list_delegates (.ok (.arr [sample_valid_delegate, sample_missing_name])) u2 =
      some [sample_valid_delegate]) := by
  have hpt : ∀ j, valid_delegate j = spec_valid_delegate j := by
    intro j
    cases j <;> simp [valid_delegate, spec_valid_delegate, Json.getField]
  have hfilter : ∀ elems : List Json,
      elems.filter valid_delegate = elems.filter spec_valid_delegate := by
    intro elems
    apply List.filter_congr
    intro a ha
    exact hpt a
  refine ⟨hpt, ?_, ?_, ?_⟩
  · intro elems
    simp only [extract_delegate_list, hfilter]
  · intro fields elems h
    simp only [extract_delegate_list, h, hfilter]
  · intro u2
    rfl

/-- Witness for the C5 theorem's object-shaped conjunct. -/
theorem valid_delegate_filter_contract_witness :
    extract_delegate_list
        (some (.obj [("delegates", .arr [sample_valid_delegate, sample_missing_name])])) =
      some [sample_valid_delegate] := by
  have h := valid_delegate_filter_contract.2.2.1
    [("delegates", .arr [sample_valid_delegate, sample_missing_name])]
    [sample_valid_delegate, sample_missing_name] rfl
  rw [h]
  rfl

theorem extract_delegate_list_sound (p : Option Json) (l : List Json)
    (h : extract_delegate_list p = some l) :
    l ≠ [] ∧ ∀ j ∈ l, valid_delegate j = true := by
  match p with
  | none => cases h
  | some .null => cases h
  | some (.bool b) => cases h
  | some (.num q) => cases h
  | some (.str s) => cases h
  | some (.arr elems) =>
    simp only [extract_delegate_list] at h
    by_cases he : (elems.filter valid_delegate).isEmpty = true
    · rw [if_pos he] at h
      cases h
    · rw [if_neg he] at h
      obtain rfl : elems.filter valid_delegate = l := Option.some.inj h
      refine ⟨?_, fun j hj => (List.mem_filter.mp hj).2⟩
      simpa using he
  | some (.obj fields) =>
    simp only [extract_delegate_list] at h
    cases hd : lookupField fields "delegates" with
    | none => rw [hd] at h; cases h
    | some v =>
      rw [hd] at h
      cases v with
      | arr elems =>
        have h2 : (if (elems.filter valid_delegate).isEmpty = true then none
            else some (elems.filter valid_delegate)) = some l := h
        by_cases he : (elems.filter valid_delegate).isEmpty = true
        · rw [if_pos he] at h2
          cases h2
        · rw [if_neg he] at h2
          obtain rfl : elems.filter valid_delegate = l := Option.some.inj h2
          refine ⟨?_, fun j hj => (List.mem_filter.mp hj).2⟩
          simpa using he
      | null => cases h
      | bool b => cases h
      | num q => cases h
      | str s => cases h
      | obj fs => cases h

theorem list_delegates_sound (u1 u2 : Upstream) (l : List Json)
    (h : list_delegates u1 u2 = some l) :
    l ≠ [] ∧ ∀ j ∈ l, valid_delegate j = true := by
  simp only [list_delegates] at h
  cases h1 : extract_delegate_list (request_json u1 true) with
  | some d =>
    rw [h1] at h
    obtain rfl : d = l := Option.some.inj h
    exact extract_delegate_list_sound _ _ h1
  | none =>
    rw [h1] at h
    exact extract_delegate_list_sound _ _ h

/-- C9: `list_delegates` never returns an empty list — its result is
`None` or a non-empty list of records passing `_valid_delegate` — and
when the versioned endpoint yields no structurally valid record
(including a well-formed empty list) the client falls through to the
legacy path. -/
theorem list_delegates_never_empty :
    (∀ u1 u2 l, list_delegates u1 u2 = some l →
      l ≠ [] ∧ ∀ j ∈ l, valid_delegate j = true) ∧
    (∀ u1 u2, extract_delegate_list (request_json u1 true) = none →
      list_delegates u1 u2 = extract_delegate_list (request_json u2 true)) ∧
    (∀ u2, list_delegates (.ok (.arr [])) u2 =
      extract_delegate_list (request_json u2 true)) := by
  refine ⟨fun u1 u2 l h => list_delegates_sound u1 u2 l h, ?_, ?_⟩
  · intro u1 u2 h
    simp only [list_delegates, h]
  · intro u2
    simp only [list_delegates]
    rfl

/-- Witness for the C9 theorem at concrete inputs. -/
theorem list_delegates_never_empty_witness :
    ([sample_valid_delegate] ≠ [] ∧
      ∀ j ∈ [sample_valid_delegate], valid_delegate j = true) ∧
    list_delegates (.ok (.str "oops")) (.ok (.arr [sample_valid_delegate])) =
      extract_delegate_list (request_json (.ok (.arr [sample_valid_delegate])) true) := by
  constructor
  · exact list_delegates_never_empty.1 (.ok (.arr [sample_valid_delegate])) .netError
      [sample_valid_delegate] rfl
  · exact list_delegates_never_empty.2.1 (.ok (.str "oops"))
      (.ok (.arr [sample_valid_delegate])) rfl

theorem str_field_of_check (fields : List (String × Json)) (key : String)
    (h : (match lookupField fields key with
          | some (.str s) => decide (pystripStr s ≠ "")
          | _ => false) = true) :
    ∃ s, lookupField fields key = some (.str s) ∧ pystripStr s ≠ "" := by
  cases hk : lookupField fields key with
  | none => rw [hk] at h; cases h
  | some v =>
    rw [hk] at h
    cases v with
    | str s => exact ⟨s, rfl, of_decide_eq_true h⟩
    | null => cases h
    | bool b => cases h
    | num q => cases h
    | arr elems => cases h
    | obj fs => cases h

theorem parse_delegate_of_valid (j : Json) (now : String)
    (h : valid_delegate j = true) : ∃ d, parse_delegate j now = some d := by
  cases j with
  | obj fields =>
    simp only [valid_delegate, Bool.and_eq_true] at h
    obtain ⟨⟨⟨hid, hname⟩, hcap⟩, hcv⟩ := h
    obtain ⟨sid, hsid, hsid'⟩ := str_field_of_check fields "id" hid
    obtain ⟨sname, hsname, hsname'⟩ := str_field_of_check fields "name" hname
    have hsidne : sid ≠ "" := fun he => hsid' (by rw [he]; rfl)
    have hsnamene : sname ≠ "" := fun he => hsname' (by rw [he]; rfl)
    have e1 : pyGetOrDefaultStr (Json.obj fields) "id" "" = sid := by
      simp [pyGetOrDefaultStr, Json.getField, hsid, pyTruthy, pyStrCoerce, hsidne]
    have e2 : pyGetOrDefaultStr (Json.obj fields) "name" "" = sname := by
      simp [pyGetOrDefaultStr, Json.getField, hsname, pyTruthy, pyStrCoerce, hsnamene]
    have hne2 : parse_delegate (Json.obj fields) now ≠ none := by
      simp only [parse_delegate, e1, e2]
      rw [if_neg]
      · simp
      · simp [hsid', hsname']
    exact Option.ne_none_iff_exists'.mp hne2
  | null => cases h
  | bool b => cases h
  | num q => cases h
  | str s => cases h
  | arr elems => cases h

theorem dictInsert_ne_nil (m : List (String × Delegate)) (k : String) (v : Delegate) :
    dictInsert m k v ≠ [] := by
  unfold dictInsert
  split
  · rename_i hany
    intro hmap
    rw [List.map_eq_nil_iff] at hmap
    subst hmap
    simp at hany
  · simp

theorem buildRegistry_foldl_ne (now : String) (items : List Json) :
    ∀ acc : List (String × Delegate), acc ≠ [] →
      List.foldl
        (fun acc item =>
          match parse_delegate item now with
          | some d => dictInsert acc d.id d
          | none => acc) acc items ≠ [] := by
  induction items with
  | nil => intro acc h; exact h
  | cons i is ih =>
    intro acc h
    simp only [List.foldl_cons]
    apply ih
    show (match parse_delegate i now with
          | some d => dictInsert acc d.id d
          | none => acc) ≠ []
    cases hp : parse_delegate i now with
    | some d =>
      exact dictInsert_ne_nil acc d.id d
    | none =>
      exact h

theorem buildRegistry_ne_nil (items : List Json) (now : String)
    (hne : items ≠ []) (hval : ∀ j ∈ items, valid_delegate j = true) :
    buildRegistry items now ≠ [] := by
  cases items with
  | nil => exact absurd rfl hne
  | cons i is =>
    unfold buildRegistry
    simp only [List.foldl_cons]
    apply buildRegistry_foldl_ne
    obtain ⟨d, hd⟩ := parse_delegate_of_valid i now (hval i (List.mem_cons_self _ _))
    rw [hd]
    exact dictInsert_ne_nil [] d.id d

/-- C6: `get_delegate_registry` returns the registry built (keyed by
delegate id) from the remote records exactly when `list_delegates`
yielded a result — which, by the validity filtering, means at least one
structurally valid record — and the hardcoded `LOCAL_DELEGATES` fallback
otherwise. -/
theorem get_delegate_registry_contract (u1 u2 : Upstream) (now boot : String) :
    (list_delegates u1 u2 = none →
      get_delegate_registry u1 u2 now boot = LOCAL_DELEGATES boot) ∧
    (∀ remote, list_delegates u1 u2 = some remote →
      get_delegate_registry u1 u2 now boot = buildRegistry remote now ∧
      buildRegistry remote now ≠ []) := by
  constructor
  · intro h
    simp only [get_delegate_registry, h]
  · intro remote h
    obtain ⟨hne, hval⟩ := list_delegates_sound u1 u2 remote h
    have hbuild := buildRegistry_ne_nil remote now hne hval
    refine ⟨?_, hbuild⟩
    simp only [get_delegate_registry, h]
    rw [if_neg (by simpa using hne), if_neg (by simpa using hbuild)]

/-- Witness for the C6 theorem at concrete inputs. -/
theorem get_delegate_registry_contract_witness :
    get_delegate_registry .netError .netError "now" "boot" = LOCAL_DELEGATES "boot" ∧
    get_delegate_registry (.ok (.arr [sample_valid_delegate])) .netError "now" "boot" =
      buildRegistry [sample_valid_delegate] "now" := by
  constructor
  · exact (get_delegate_registry_contract .netError .netError "now" "boot").1 rfl
  · exact ((get_delegate_registry_contract (.ok (.arr [sample_valid_delegate])) .netError
      "now" "boot").2 [sample_valid_delegate] rfl).1

/-- C7: `send_message` POSTs `/agent/message` with the timeout read from
`ALPHONSE_API_MESSAGE_TIMEOUT_SECONDS`: unset, blank, `"none"`, the
literal `"0"` (and the code's extra `"inf"`/`"infinite"` literals), a
parse that is `<= 0` (so also IEEE underflow to zero), or an unparseable
value all yield no per-request timeout (`urlopen`'s process-default
behaviour); a value parsing to a positive finite number of seconds is
used exactly, and more generally any parse the `<= 0` test does not
reject (so also `infinity` and `nan`) is used as-is. -/
theorem message_timeout_contract :
    (read_timeout_seconds none = none) ∧
    (∀ s, pystripStr s = "" → read_timeout_seconds (some s) = none) ∧
    (∀ s, pyLower (pystripStr s) = "none" → read_timeout_seconds (some s) = none) ∧
    (∀ s, pyLower (pystripStr s) = "0" → read_timeout_seconds (some s) = none) ∧
    (∀ s, pyLower (pystripStr s) = "inf" ∨ pyLower (pystripStr s) = "infinite" →
      read_timeout_seconds (some s) = none) ∧
    (∀ s f, pyParseFloat (pyLower (pystripStr s)) = some f → f.le0 = true →
      read_timeout_seconds (some s) = none) ∧
    (∀ s, pyParseFloat (pyLower (pystripStr s)) = none →
      read_timeout_seconds (some s) = none) ∧
    (∀ s m e, pyParseFloat (pyLower (pystripStr s)) = some (.finite m e) → 0 < m →
      read_timeout_seconds (some s) = some (.finite m e)) ∧
    (∀ s f, pyParseFloat (pyLower (pystripStr s)) = some f → f.le0 = false →
      pyLower (pystripStr s) ≠ "inf" → read_timeout_seconds (some s) = some f) ∧
    (∀ env, (send_message_request env).timeout = read_timeout_seconds env ∧
      (send_message_request env).method = "POST" ∧
      (send_message_request env).path = "/agent/message") := by
  have hgen : ∀ s f, pyParseFloat (pyLower (pystripStr s)) = some f → f.le0 = false →
      pyLower (pystripStr s) ≠ "inf" → read_timeout_seconds (some s) = some f := by
    intro s f hp hle hinf
    have h1 : pyLower (pystripStr s) ≠ "" := by
      intro h
      rw [h] at hp
      cases hp
    have h2 : pyLower (pystripStr s) ≠ "none" := by
      intro h
      rw [h] at hp
      cases hp
    have h3 : pyLower (pystripStr s) ≠ "infinite" := by
      intro h
      rw [h] at hp
      cases hp
    have h5 : pyLower (pystripStr s) ≠ "0" := by
      intro h
      rw [h] at hp
      have hf : PyFloat.finite 0 0 = f := Option.some.inj hp
      rw [← hf] at hle
      cases hle
    simp only [read_timeout_seconds]
    rw [if_neg h1, if_neg (by simp [h2, h3, h5, hinf]), hp]
    exact if_neg (by simp [hle])
  refine ⟨rfl, ?_, ?_, ?_, ?_, ?_, ?_, ?_, hgen, fun env => ⟨rfl, rfl, rfl⟩⟩
  · intro s h
    simp only [read_timeout_seconds, h]
    rfl
  · intro s h
    simp only [read_timeout_seconds, h]
    rfl
  · intro s h
    simp only [read_timeout_seconds, h]
    rfl
  · intro s h
    rcases h with h | h <;>
      · simp only [read_timeout_seconds, h]
        rfl
  · intro s f hp hle
    simp only [read_timeout_seconds]
    split
    · rfl
    · split
      · rfl
      · rw [hp]
        exact if_pos hle
  · intro s hp
    simp only [read_timeout_seconds]
    split
    · rfl
    · split
      · rfl
      · rw [hp]
  · intro s m e hp hm
    have hinf : pyLower (pystripStr s) ≠ "inf" := by
      intro h
      rw [h] at hp
      exact PyFloat.noConfusion (Option.some.inj hp)
    exact hgen s (.finite m e) hp (by simp [PyFloat.le0]; omega) hinf

set_option maxRecDepth 100000 in
/-- Witness for the C7 theorem at concrete inputs, covering the Python
`float()` corners: `infinity`/`+inf`/`nan` pass through as timeouts (only
`inf`/`infinite` are in the code's literal set), PEP 515 underscores
parse, and `1e-400` underflows to zero and is rejected as non-positive. -/
theorem message_timeout_contract_witness :
    read_timeout_seconds (some "  ") = none ∧
    read_timeout_seconds (some " None ") = none ∧
    read_timeout_seconds (some "0") = none ∧
    read_timeout_seconds (some "INF") = none ∧
    read_timeout_seconds (some "-3") = none ∧
    read_timeout_seconds (some "1e-400") = none ∧
    read_timeout_seconds (some "abc") = none ∧
    read_timeout_seconds (some " 2.5 ") = some (.finite 5 (-1)) ∧
    read_timeout_seconds (some "2_5") = some (.finite 25 0) ∧
    read_timeout_seconds (some "infinity") = some .inf ∧
    read_timeout_seconds (some "+inf") = some .inf ∧
    read_timeout_seconds (some "nan") = some .nan := by
  refine ⟨?_, ?_, ?_, ?_, ?_, ?_, ?_, ?_, ?_, ?_, ?_, ?_⟩
  · exact message_timeout_contract.2.1 "  " rfl
  · exact message_timeout_contract.2.2.1 " None " rfl
  · exact message_timeout_contract.2.2.2.1 "0" rfl
  · exact message_timeout_contract.2.2.2.2.1 "INF" (Or.inl rfl)
  · exact message_timeout_contract.2.2.2.2.2.1 "-3" (.finite (-3) 0) rfl rfl
  · exact message_timeout_contract.2.2.2.2.2.1 "1e-400" (.finite 0 0) rfl rfl
  · exact message_timeout_contract.2.2.2.2.2.2.1 "abc" rfl
  · exact message_timeout_contract.2.2.2.2.2.2.2.1 " 2.5 " 5 (-1) rfl (by decide)
  · exact message_timeout_contract.2.2.2.2.2.2.2.1 "2_5" 25 0 rfl (by decide)
  · exact message_timeout_contract.2.2.2.2.2.2.2.2.1 "infinity" .inf rfl rfl (by decide)
  · exact message_timeout_contract.2.2.2.2.2.2.2.2.1 "+inf" .inf rfl rfl (by decide)
  · exact message_timeout_contract.2.2.2.2.2.2.2.2.1 "nan" .nan rfl rfl (by decide)

/-- Witness for the C8 theorem at concrete inputs. -/
theorem ensure_correlation_id_contract_witness :
    ensure_correlation_id none 3 = "ui-3" ∧
    ensure_correlation_id (some "") 3 = "ui-3" ∧
    pystripStr "ui-3" ≠ "" ∧
    ensure_correlation_id (some "abc") 3 = "abc" ∧
    ensure_correlation_id (some (ensure_correlation_id (some " x ") 1)) 2 =
      ensure_correlation_id (some " x ") 1 := by
  refine ⟨?_, ?_, ?_, ?_, ?_⟩
  · rw [(ensure_correlation_id_contract.1 3).1]
    rfl
  · rw [(ensure_correlation_id_contract.1 3).2]
    rfl
  · exact ensure_correlation_id_contract.2.1 3
  · exact ensure_correlation_id_contract.2.2.1 3
  · exact ensure_correlation_id_contract.2.2.2 (some " x ") 1 2
